import Mathlib

/-!
Verification of the capital-constrained trade-lifecycle simulator.

The source consists of three near-duplicate Python systems:
`comprehensive_trading_system_demo.py` (class `QuantumEnhancedTradingSystemV2`,
namespace `Comp` below), `enhanced_trading_system_demo.py`
(class `EnhancedQuantumTradingSystem`, namespace `Enh`), and
`realistic_quantum_trading_system.py` (class `RealisticQuantumTradingSystem`,
namespace `RealQ`).

Modelling conventions:
* Python `Decimal` and `float` values are embedded as exact rationals (`ℚ`).
  All numeric literals appearing in the source (`12.00`, `0.009`, `0.0025`,
  `0.6`, ...) are exactly representable, and `Decimal(str(f))` conversions
  of such literals are exact, so no precision is lost for the values the
  claims are about.
* `Decimal.quantize` to four decimal places with `ROUND_HALF_UP` is embedded
  as `quantize4` (round to 4 decimal places, ties away from zero).
* Python `int(x)` truncation toward zero is embedded as `pyInt`.
* Python `dict` objects (`allocated_capital`, `active_trades`) are embedded
  as association lists with the Python assignment / `pop` / membership
  semantics (`dictSet`, `dictFind?`, `dictErase`); a Python dict never holds
  a duplicate key, which corresponds to the `Nodup`-keys hypotheses used in
  the theorems.
* Calls to `random.uniform` / `random.random` inside a risk cycle are
  embedded as explicit function parameters (`monF`, `closeF`, `randF`, ...)
  giving the drawn value per trade id, so each cycle is a deterministic
  function of the state and the drawn values, exactly as the interpreter
  executes it.
* `datetime` fields (`executed_at`, `last_updated`) and the metrics derived
  from them (`trades_today`, `daily_target_progress`) are omitted: no claim
  mentions them and they depend on wall-clock time.
* Logging calls are omitted (they do not touch state).
-/

/-- Python `int(x)`: truncation toward zero. -/
def pyInt (x : ℚ) : ℤ := if 0 ≤ x then ⌊x⌋ else -⌊-x⌋

/-- Decimal `ROUND_HALF_UP` to an integer: round half away from zero. -/
def roundHalfUp (x : ℚ) : ℤ := if 0 ≤ x then ⌊x + 1/2⌋ else -⌊-x + 1/2⌋

/-- The quantize call of `execute_trade`: four decimal places, `ROUND_HALF_UP`. -/
def quantize4 (x : ℚ) : ℚ := (roundHalfUp (x * 10000) : ℚ) / 10000

section Dict

variable {α : Type}

/-- First value stored under key `k` (`d[k]` / `d.get(k)`); a Python dict
has unique keys, so first-match lookup coincides with dict lookup. -/
def dictFind? (d : List (String × α)) (k : String) : Option α :=
  match d with
  | [] => none
  | p :: rest => if p.1 == k then some p.2 else dictFind? rest k

/-- Remove the first entry stored under key `k` (the effect of `d.pop(k)`). -/
def dictErase (d : List (String × α)) (k : String) : List (String × α) :=
  match d with
  | [] => []
  | p :: rest => if p.1 == k then rest else p :: dictErase rest k

/-- Python dict assignment `d[k] = v`: overwrite if present, else append. -/
def dictSet (d : List (String × α)) (k : String) (v : α) : List (String × α) :=
  match d with
  | [] => [(k, v)]
  | p :: rest => if p.1 == k then (k, v) :: rest else p :: dictSet rest k v

/-- The key list of an association list. -/
def keys (d : List (String × α)) : List String := d.map Prod.fst

end Dict

/-- The sum of all values of the dict, starting from Decimal zero. -/
def sumValues (d : List (String × ℚ)) : ℚ := (d.map Prod.snd).sum

/-- `SystemConfig` dataclass: identical field values in all three source
files. -/
structure SystemConfig where
  total_capital : ℚ
  min_profit_per_trade : ℚ
  target_trades_per_day : ℕ
  target_win_rate : ℚ
  max_leverage : ℤ
  min_leverage : ℤ
  min_asset_count : ℕ
  max_drawdown : ℚ
  stop_loss_pct : ℚ
  take_profit_usdt : ℚ
deriving DecidableEq, Repr

/-- `self.config = SystemConfig()`: the dataclass defaults. -/
def systemConfig : SystemConfig where
  total_capital := 12.00
  min_profit_per_trade := 0.6
  target_trades_per_day := 750
  target_win_rate := 0.875
  max_leverage := 100
  min_leverage := 50
  min_asset_count := 300
  max_drawdown := 0.009
  stop_loss_pct := 0.0025
  take_profit_usdt := 0.6

/-- The fields of the `quantum_prediction` dict read downstream
(`generate_trading_signal` reads only `"confidence"` and `"direction"`;
the remaining keys are never read past asset construction and are
omitted). -/
structure QuantumPrediction where
  direction : String
  confidence : ℚ
deriving DecidableEq, Repr

/-- `TradingAsset` dataclass (the `last_updated : datetime` field is
omitted; `quantum_prediction` is `Optional` in the source but every asset
produced by `analyze_asset` carries one and `generate_trading_signal`
dereferences it unconditionally, so it is embedded as required). -/
structure TradingAsset where
  symbol : String
  current_price : ℚ
  daily_volume : ℚ
  volatility_24h : ℚ
  min_order_size : ℚ
  max_leverage : ℤ
  confidence_score : ℚ
  quantum_prediction : QuantumPrediction
deriving DecidableEq, Repr

/-- `TradeResult` dataclass (`executed_at : datetime` omitted). -/
structure TradeResult where
  trade_id : String
  symbol : String
  side : String
  quantity : ℚ
  price : ℚ
  leverage : ℤ
  order_id : String
  expected_profit : ℚ
  actual_profit : Option ℚ := none
  status : String := "Executed"
deriving DecidableEq, Repr

/-- `PerformanceMetrics` dataclass (`trades_today` and
`daily_target_progress` omitted: derived from `datetime.now()`). -/
structure PerformanceMetrics where
  total_trades : ℕ := 0
  successful_trades : ℕ := 0
  failed_trades : ℕ := 0
  total_profit : ℚ := 0
  total_loss : ℚ := 0
  win_rate : ℚ := 0
  average_profit_per_trade : ℚ := 0
  current_drawdown : ℚ := 0
  max_drawdown_reached : ℚ := 0
deriving DecidableEq, Repr

/-- The mutable state shared by the five loops of one system instance:
the fields set in `__init__` that the claims are about.  (`scanned_assets`
is never read by any operation under study and is omitted;
`trade_counter` exists only in the enhanced and realistic systems.) -/
structure SystemState where
  available_capital : ℚ
  allocated_capital : List (String × ℚ)
  filtered_assets : List TradingAsset
  active_trades : List (String × TradeResult)
  trade_history : List TradeResult
  performance_metrics : PerformanceMetrics
  running : Bool
  trade_counter : ℕ
deriving DecidableEq, Repr

/-- The state right after `__init__`. -/
def initState : SystemState where
  available_capital := systemConfig.total_capital
  allocated_capital := []
  filtered_assets := []
  active_trades := []
  trade_history := []
  performance_metrics := {}
  running := false
  trade_counter := 0

/-- `calculate_pnl` (identical body in all three files):
`price_diff * quantity` with the sign set by the side. -/
def calculate_pnl (trade : TradeResult) (current_price : ℚ) : ℚ :=
  let price_diff :=
    if trade.side == "Buy" then current_price - trade.price
    else trade.price - current_price
  price_diff * trade.quantity

/-- `update_capital_allocation` (identical body in all three files; named
`update_realistic_capital_allocation` in the realistic one): deduct
`quantity * price / leverage` from `available_capital` and record it in
`allocated_capital`. -/
def update_capital_allocation (s : SystemState) (trade : TradeResult) : SystemState :=
  let trade_capital := trade.quantity * trade.price / (trade.leverage : ℚ)
  { s with
    available_capital := s.available_capital - trade_capital
    allocated_capital := dictSet s.allocated_capital trade.trade_id trade_capital }

/-- `close_trade` (identical state transition in all three files; named
`close_realistic_trade` in the realistic one).  The final price is drawn
randomly in the source (`trade.price * Decimal(str(random.uniform(...)))`
resp. `trade.price * Decimal(str(1 + price_change))`); the drawn
multiplicative factor is the parameter `f`.  The whole body is guarded by
`if trade_id in self.active_trades`, and the capital return is further
guarded by `if trade_id in self.allocated_capital`. -/
def close_trade (s : SystemState) (trade_id status : String) (f : ℚ) : SystemState :=
  match dictFind? s.active_trades trade_id with
  | none => s
  | some trade =>
    let active' := dictErase s.active_trades trade_id
    let current_price := trade.price * f
    let pnl := calculate_pnl trade current_price
    let trade' := { trade with actual_profit := some pnl, status := status }
    match dictFind? s.allocated_capital trade_id with
    | some capital_returned =>
      { s with
        active_trades := active'
        allocated_capital := dictErase s.allocated_capital trade_id
        available_capital := s.available_capital + capital_returned + pnl
        trade_history := s.trade_history ++ [trade'] }
    | none =>
      { s with
        active_trades := active'
        trade_history := s.trade_history ++ [trade'] }

/-- The `for trade_id, status in trades_to_close: await self.close_trade(...)`
loop at the end of every risk-monitor cycle. -/
def foldClose (s : SystemState) (L : List (String × String)) (closeF : String → ℚ) :
    SystemState :=
  L.foldl (fun st p => close_trade st p.1 p.2 (closeF p.1)) s

/-- `update_performance_tracking` (identical state transition in all three
files; named `update_realistic_performance_tracking` in the realistic one):
recompute the metrics from `trade_history` and the ledger.  Fields whose
recomputation is guarded by `if metrics.total_trades > 0` (resp.
`if current_capital < total_capital`) keep their previous values when the
guard fails, exactly as in the source. -/
def update_performance_tracking (s : SystemState) : SystemState :=
  let m := s.performance_metrics
  let total_trades := s.trade_history.length
  let successful_trades := (s.trade_history.filter (fun t => t.status == "ProfitTaken")).length
  let failed_trades := (s.trade_history.filter (fun t => t.status == "StopLoss")).length
  let win_rate := if total_trades > 0 then (successful_trades : ℚ) / (total_trades : ℚ) else m.win_rate
  let profits := s.trade_history.filterMap fun t =>
    match t.actual_profit with
    | some p => if 0 < p then some p else none
    | none => none
  let losses := s.trade_history.filterMap fun t =>
    match t.actual_profit with
    | some p => if p < 0 then some (-p) else none
    | none => none
  let total_profit := profits.sum
  let total_loss := losses.sum
  let average_profit_per_trade :=
    if total_trades > 0 then (total_profit - total_loss) / (total_trades : ℚ)
    else m.average_profit_per_trade
  let current_capital := s.available_capital + sumValues s.allocated_capital
  let current_drawdown :=
    if current_capital < systemConfig.total_capital then
      (systemConfig.total_capital - current_capital) / systemConfig.total_capital
    else m.current_drawdown
  let max_drawdown_reached :=
    if current_capital < systemConfig.total_capital then
      max m.max_drawdown_reached
        ((systemConfig.total_capital - current_capital) / systemConfig.total_capital)
    else m.max_drawdown_reached
  { s with
    performance_metrics :=
      { total_trades := total_trades
        successful_trades := successful_trades
        failed_trades := failed_trades
        total_profit := total_profit
        total_loss := total_loss
        win_rate := win_rate
        average_profit_per_trade := average_profit_per_trade
        current_drawdown := current_drawdown
        max_drawdown_reached := max_drawdown_reached } }

/-- The ephemeral trading-signal dict returned by
`generate_trading_signal`. -/
structure Signal where
  should_trade : Bool
  confidence : ℚ
  direction : String
  leverage : ℤ
  expected_profit : ℚ
  risk_score : ℚ
deriving DecidableEq, Repr

namespace Comp

/-- `QuantumEnhancedTradingSystemV2.generate_trading_signal`
(comprehensive_trading_system_demo.py, lines 308-340). -/
def generate_trading_signal (s : SystemState) (asset : TradingAsset) : Signal :=
  let confidence := asset.quantum_prediction.confidence
  let leverage := min (max (pyInt (confidence * 100)) systemConfig.min_leverage)
      systemConfig.max_leverage
  let expected_movement := asset.volatility_24h * confidence * 0.5
  let trade_capital := min s.available_capital 5
  let position_size := trade_capital * (leverage : ℚ)
  let expected_profit := position_size * expected_movement
  let risk_score := ((leverage : ℚ) / (systemConfig.max_leverage : ℚ)
      + asset.volatility_24h / 0.1) / 2
  let should_trade := decide (confidence > 0.75)
      && decide (expected_profit ≥ systemConfig.min_profit_per_trade)
      && decide (risk_score < 0.5)
      && decide (s.available_capital ≥ 5)
  { should_trade := should_trade
    confidence := confidence
    direction := asset.quantum_prediction.direction
    leverage := leverage
    expected_profit := expected_profit
    risk_score := risk_score }

/-- `QuantumEnhancedTradingSystemV2.execute_trade`
(comprehensive_trading_system_demo.py, lines 413-440): build the
`TradeResult`; `trade_id` and `order_id` are derived from the wall clock
in the source and are parameters here. -/
def execute_trade (s : SystemState) (asset : TradingAsset) (signal : Signal)
    (trade_id order_id : String) : TradeResult :=
  let trade_capital := min s.available_capital 5
  let leverage := signal.leverage
  let position_size := trade_capital * (leverage : ℚ)
  let quantity := position_size / asset.current_price
  { trade_id := trade_id
    symbol := asset.symbol
    side := if signal.direction == "Long" then "Buy" else "Sell"
    quantity := quantize4 quantity
    price := asset.current_price
    leverage := leverage
    order_id := order_id
    expected_profit := signal.expected_profit
    actual_profit := none
    status := "Executed" }

/-- `QuantumEnhancedTradingSystemV2.emergency_stop`
(comprehensive_trading_system_demo.py, lines 521-528): set
`running = False`, then close every active trade as `"Cancelled"`
(iterating over a snapshot of the key list, as
`list(self.active_trades.keys())` does). -/
def emergency_stop (s : SystemState) (closeF : String → ℚ) : SystemState :=
  let s' := { s with running := false }
  (keys s'.active_trades).foldl
    (fun st trade_id => close_trade st trade_id "Cancelled" (closeF trade_id)) s'

/-- The body of the `for trade_id, trade in list(self.active_trades.items())`
classification loop of `QuantumEnhancedTradingSystemV2.monitor_risks`
(comprehensive_trading_system_demo.py, lines 462-491): the entry a trade
contributes to `trades_to_close`, if any, at its freshly drawn price
(`monF`). -/
def classify (monF : String → ℚ) (p : String × TradeResult) :
    Option (String × String) :=
  let trade := p.2
  let current_price := trade.price * monF p.1
  let pnl := calculate_pnl trade current_price
  if pnl < -trade.price * systemConfig.stop_loss_pct then some (p.1, "StopLoss")
  else if pnl ≥ systemConfig.take_profit_usdt then some (p.1, "ProfitTaken")
  else none

/-- `QuantumEnhancedTradingSystemV2.monitor_risks`: on a drawdown breach
run `emergency_stop` and return; otherwise close the collected
`trades_to_close` (each close drawing its own price, `closeF`). -/
def monitor_risks (s : SystemState) (monF closeF : String → ℚ) : SystemState :=
  if s.performance_metrics.current_drawdown > systemConfig.max_drawdown then
    emergency_stop s closeF
  else
    let trades_to_close := s.active_trades.filterMap (classify monF)
    foldClose s trades_to_close closeF

end Comp

namespace Enh

/-- `EnhancedQuantumTradingSystem.generate_trading_signal`
(enhanced_trading_system_demo.py, lines 285-316): leverage gain factor 80,
per-trade cap 4 USDT, thresholds 0.72 / 0.4 / 0.6 / 3. -/
def generate_trading_signal (s : SystemState) (asset : TradingAsset) : Signal :=
  let confidence := asset.quantum_prediction.confidence
  let leverage := min (max (pyInt (confidence * 80)) systemConfig.min_leverage)
      systemConfig.max_leverage
  let expected_movement := asset.volatility_24h * confidence * 0.6
  let trade_capital := min s.available_capital 4
  let position_size := trade_capital * (leverage : ℚ)
  let expected_profit := position_size * expected_movement
  let risk_score := ((leverage : ℚ) / (systemConfig.max_leverage : ℚ)
      + asset.volatility_24h / 0.1) / 2
  let should_trade := decide (confidence > 0.72)
      && decide (expected_profit ≥ 0.4)
      && decide (risk_score < 0.6)
      && decide (s.available_capital ≥ 3)
  { should_trade := should_trade
    confidence := confidence
    direction := asset.quantum_prediction.direction
    leverage := leverage
    expected_profit := expected_profit
    risk_score := risk_score }

/-- `EnhancedQuantumTradingSystem.execute_trade`
(enhanced_trading_system_demo.py, lines 386-413): as the comprehensive
one, with a 4 USDT per-trade cap. -/
def execute_trade (s : SystemState) (asset : TradingAsset) (signal : Signal)
    (trade_id order_id : String) : TradeResult :=
  let trade_capital := min s.available_capital 4
  let leverage := signal.leverage
  let position_size := trade_capital * (leverage : ℚ)
  let quantity := position_size / asset.current_price
  { trade_id := trade_id
    symbol := asset.symbol
    side := if signal.direction == "Long" then "Buy" else "Sell"
    quantity := quantize4 quantity
    price := asset.current_price
    leverage := leverage
    order_id := order_id
    expected_profit := signal.expected_profit
    actual_profit := none
    status := "Executed" }

/-- `EnhancedQuantumTradingSystem.select_best_trading_opportunity`
(enhanced_trading_system_demo.py, lines 366-384): scan the top 10
filtered assets, keep the admissible signal maximizing
`confidence * expected_profit / (1 + risk_score)` against a running best
score starting at `0.0` (strict improvement required). -/
def select_best_trading_opportunity (s : SystemState) :
    Option (TradingAsset × Signal) :=
  let r := (s.filtered_assets.take 10).foldl
    (fun (acc : Option (TradingAsset × Signal) × ℚ) asset =>
      let signal := generate_trading_signal s asset
      if signal.should_trade then
        let score := signal.confidence * signal.expected_profit / (1 + signal.risk_score)
        if score > acc.2 then (some (asset, signal), score) else acc
      else acc)
    (none, 0)
  r.1

/-- `EnhancedQuantumTradingSystem.execute_trading_cycle`
(enhanced_trading_system_demo.py, lines 335-364): abort (no trade) when
`available_capital < 3` or no assets or no admissible opportunity;
otherwise build the trade, bump `trade_counter`, deduct capital via
`update_capital_allocation` and insert the trade into `active_trades`.
Returns the `bool` result of the source together with the new state. -/
def execute_trading_cycle (s : SystemState) (trade_id order_id : String) :
    Bool × SystemState :=
  if s.available_capital < 3 then (false, s)
  else if s.filtered_assets.isEmpty then (false, s)
  else
    match select_best_trading_opportunity s with
    | none => (false, s)
    | some (asset, signal) =>
      let trade := execute_trade s asset signal trade_id order_id
      let s₁ := { s with trade_counter := s.trade_counter + 1 }
      let s₂ := update_capital_allocation s₁ trade
      let s₃ := { s₂ with active_trades := dictSet s₂.active_trades trade.trade_id trade }
      (true, s₃)

/-- `EnhancedQuantumTradingSystem.monitor_risks`
(enhanced_trading_system_demo.py, lines 435-469): on a drawdown breach it
only logs a warning and returns — no trade is closed and `running` is not
touched.  Otherwise each active trade is repriced at
`price * (1 + price_change)` (`price_change` drawn per trade, parameter
`monC`), closed on stop-loss, on `pnl ≥ 0.4`, or — with probability 5% —
closed randomly (`randF` is the per-trade `random.random()` draw) with the
status picked by the sign of `pnl`.  The final close prices are drawn
separately (`closeC` is the drawn `price_change` of each close). -/
def classify (monC randF : String → ℚ) (p : String × TradeResult) :
    Option (String × String) :=
  let trade := p.2
  let current_price := trade.price * (1 + monC p.1)
  let pnl := calculate_pnl trade current_price
  if pnl < -trade.price * systemConfig.stop_loss_pct then some (p.1, "StopLoss")
  else if pnl ≥ 0.4 then some (p.1, "ProfitTaken")
  else if randF p.1 < 0.05 then
    some (p.1, if pnl > 0 then "ProfitTaken" else "StopLoss")
  else none

/-- The drawdown check and close loop of the enhanced `monitor_risks`:
a breach only logs and returns. -/
def monitor_risks (s : SystemState) (monC closeC randF : String → ℚ) : SystemState :=
  if s.performance_metrics.current_drawdown > systemConfig.max_drawdown then
    s
  else
    let trades_to_close := s.active_trades.filterMap (classify monC randF)
    foldClose s trades_to_close (fun trade_id => 1 + closeC trade_id)

end Enh

namespace RealQ

/-- `RealisticQuantumTradingSystem.monitor_realistic_risks`
(realistic_quantum_trading_system.py, lines 464-497): as the enhanced
monitor — a drawdown breach is only logged — with take-profit threshold
`0.5` and an 8% random-close probability. -/
def classify (monC randF : String → ℚ) (p : String × TradeResult) :
    Option (String × String) :=
  let trade := p.2
  let current_price := trade.price * (1 + monC p.1)
  let pnl := calculate_pnl trade current_price
  if pnl < -trade.price * systemConfig.stop_loss_pct then some (p.1, "StopLoss")
  else if pnl ≥ 0.5 then some (p.1, "ProfitTaken")
  else if randF p.1 < 0.08 then
    some (p.1, if pnl > 0 then "ProfitTaken" else "StopLoss")
  else none

/-- The drawdown check and close loop of `monitor_realistic_risks`. -/
def monitor_realistic_risks (s : SystemState) (monC closeC randF : String → ℚ) :
    SystemState :=
  if s.performance_metrics.current_drawdown > systemConfig.max_drawdown then
    s
  else
    let trades_to_close := s.active_trades.filterMap (classify monC randF)
    foldClose s trades_to_close (fun trade_id => 1 + closeC trade_id)

end RealQ

/-- One observable operation on the shared ledger, as the claims describe
them: a reserve is the `update_capital_allocation` call of a successful
execution cycle together with the `active_trades` insertion that follows
it; a release is a `close_trade` call with its drawn price factor. -/
inductive LedgerOp where
  | openTrade (trade : TradeResult)
  | closeTrade (trade_id status : String) (f : ℚ)
deriving DecidableEq, Repr

/-- Apply one ledger operation to the state. -/
def applyOp (s : SystemState) : LedgerOp → SystemState
  | .openTrade trade =>
    let s' := update_capital_allocation s trade
    { s' with active_trades := dictSet s'.active_trades trade.trade_id trade }
  | .closeTrade trade_id status f => close_trade s trade_id status f

/-- Run a sequence of ledger operations. -/
def runOps (s : SystemState) (ops : List LedgerOp) : SystemState :=
  ops.foldl applyOp s

/-- Each `openTrade` of the sequence uses a trade id that is not currently
allocated or active — trade ids are distinct in the source (derived from a
millisecond timestamp per trade). -/
def freshAlong (s : SystemState) : List LedgerOp → Bool
  | [] => true
  | op :: rest =>
    (match op with
     | .openTrade trade =>
       !(keys s.allocated_capital).contains trade.trade_id
         && !(keys s.active_trades).contains trade.trade_id
     | .closeTrade _ _ _ => true)
    && freshAlong (applyOp s op) rest

/-- Realized profit and loss recorded in the closed-trade history
(`actual_profit` is set on every trade the source ever appends there). -/
def realizedSum (history : List TradeResult) : ℚ :=
  (history.map fun t => t.actual_profit.getD 0).sum

/-- The capital-conservation equation of the spec, over the embedded
state. -/
def conserves (s : SystemState) : Prop :=
  s.available_capital + sumValues s.allocated_capital
    = systemConfig.total_capital + realizedSum s.trade_history

section DictLemmas

variable {α : Type}

theorem dictFind_eq_none_of_not_mem {d : List (String × α)} {k : String}
    (h : k ∉ keys d) : dictFind? d k = none := by
  induction d with
  | nil => rfl
  | cons p rest ih =>
    simp only [keys, List.map_cons, List.mem_cons, not_or] at h
    simp only [dictFind?, beq_iff_eq]
    rw [if_neg (fun hp => h.1 hp.symm)]
    exact ih h.2

theorem dictFind_isSome_of_mem {d : List (String × α)} {k : String}
    (h : k ∈ keys d) : ∃ v, dictFind? d k = some v := by
  induction d with
  | nil => simp [keys] at h
  | cons p rest ih =>
    simp only [keys, List.map_cons, List.mem_cons] at h
    by_cases hk : p.1 = k
    · exact ⟨p.2, by simp [dictFind?, hk]⟩
    · rcases h with h | h
      · exact absurd h.symm hk
      · obtain ⟨v, hv⟩ := ih h
        exact ⟨v, by simp [dictFind?, hk, hv]⟩

theorem dictFind_mem {d : List (String × α)} {k : String} {v : α}
    (h : dictFind? d k = some v) : (k, v) ∈ d := by
  induction d with
  | nil => simp [dictFind?] at h
  | cons p rest ih =>
    obtain ⟨k₀, v₀⟩ := p
    simp only [dictFind?, beq_iff_eq] at h
    by_cases hk : k₀ = k
    · subst hk
      rw [if_pos rfl] at h
      obtain rfl : v₀ = v := by injection h
      exact List.mem_cons_self _ _
    · rw [if_neg hk] at h
      exact List.mem_cons_of_mem _ (ih h)

theorem dictFind_eq_some_of_mem_nodup {d : List (String × α)} {k : String} {v : α}
    (hmem : (k, v) ∈ d) (hnd : (keys d).Nodup) : dictFind? d k = some v := by
  induction d with
  | nil => simp at hmem
  | cons p rest ih =>
    simp only [keys, List.map_cons, List.nodup_cons] at hnd
    rcases List.mem_cons.mp hmem with h | h
    · subst h
      simp [dictFind?]
    · have hk : p.1 ≠ k := by
        intro hpk
        exact hnd.1 (hpk ▸ (List.mem_map.mpr ⟨(k, v), h, rfl⟩))
      simp only [dictFind?, beq_iff_eq, if_neg hk]
      exact ih h hnd.2

theorem keys_dictErase (d : List (String × α)) (k : String) :
    keys (dictErase d k) = (keys d).erase k := by
  induction d with
  | nil => rfl
  | cons p rest ih =>
    by_cases hk : p.1 = k
    · simp [dictErase, keys, List.erase_cons, hk]
    · simp only [dictErase, keys, List.map_cons, List.erase_cons, beq_iff_eq,
        if_neg hk, List.map_cons]
      have := ih
      simp only [keys] at this
      rw [this]

theorem mem_dictErase_of_ne {d : List (String × α)} {k k' : String} {v : α}
    (hne : k' ≠ k) (hmem : (k', v) ∈ d) : (k', v) ∈ dictErase d k := by
  induction d with
  | nil => simp at hmem
  | cons p rest ih =>
    rcases List.mem_cons.mp hmem with h | h
    · subst h
      simp [dictErase, beq_iff_eq, hne]
    · by_cases hk : p.1 = k
      · simpa [dictErase, hk] using h
      · simp only [dictErase, beq_iff_eq, if_neg hk]
        exact List.mem_cons_of_mem _ (ih h)

theorem dictErase_subset {d : List (String × α)} {k : String} {p : String × α}
    (hmem : p ∈ dictErase d k) : p ∈ d := by
  induction d with
  | nil => simp [dictErase] at hmem
  | cons q rest ih =>
    by_cases hk : q.1 = k
    · simp only [dictErase, beq_iff_eq, if_pos hk] at hmem
      exact List.mem_cons_of_mem _ hmem
    · simp only [dictErase, beq_iff_eq, if_neg hk] at hmem
      rcases List.mem_cons.mp hmem with h | h
      · exact h ▸ List.mem_cons_self _ _
      · exact List.mem_cons_of_mem _ (ih h)

theorem sumValues_dictErase {d : List (String × ℚ)} {k : String} {v : ℚ}
    (h : dictFind? d k = some v) :
    sumValues (dictErase d k) = sumValues d - v := by
  induction d with
  | nil => simp [dictFind?] at h
  | cons p rest ih =>
    simp only [dictFind?, beq_iff_eq] at h
    by_cases hk : p.1 = k
    · rw [if_pos hk] at h
      obtain rfl : p.2 = v := by injection h
      simp [dictErase, hk, sumValues]
    · rw [if_neg hk] at h
      simp only [dictErase, beq_iff_eq, if_neg hk, sumValues, List.map_cons, List.sum_cons]
      have := ih h
      simp only [sumValues] at this
      rw [this]
      ring

theorem dictSet_not_mem {d : List (String × α)} {k : String} (v : α)
    (h : k ∉ keys d) : dictSet d k v = d ++ [(k, v)] := by
  induction d with
  | nil => rfl
  | cons p rest ih =>
    simp only [keys, List.map_cons, List.mem_cons, not_or] at h
    simp only [dictSet, beq_iff_eq]
    rw [if_neg (fun hp => h.1 hp.symm), List.cons_append]
    exact congrArg (p :: ·) (ih h.2)

end DictLemmas

section CloseLemmas

theorem close_trade_of_not_active {s : SystemState} {tid status : String} {f : ℚ}
    (h : dictFind? s.active_trades tid = none) :
    close_trade s tid status f = s := by
  simp [close_trade, h]

theorem close_trade_running (s : SystemState) (tid status : String) (f : ℚ) :
    (close_trade s tid status f).running = s.running := by
  unfold close_trade
  cases dictFind? s.active_trades tid with
  | none => rfl
  | some trade => cases dictFind? s.allocated_capital tid <;> rfl

theorem close_trade_history_mono {s : SystemState} {tid status : String} {f : ℚ}
    {e : TradeResult} (h : e ∈ s.trade_history) :
    e ∈ (close_trade s tid status f).trade_history := by
  unfold close_trade
  cases dictFind? s.active_trades tid with
  | none => exact h
  | some trade =>
    cases dictFind? s.allocated_capital tid <;>
      exact List.mem_append_left _ h

theorem close_trade_active_subset {s : SystemState} {tid status : String} {f : ℚ}
    {p : String × TradeResult}
    (h : p ∈ (close_trade s tid status f).active_trades) : p ∈ s.active_trades := by
  unfold close_trade at h
  cases hf : dictFind? s.active_trades tid with
  | none => rw [hf] at h; exact h
  | some trade =>
    rw [hf] at h
    cases hg : dictFind? s.allocated_capital tid with
    | none => rw [hg] at h; exact dictErase_subset h
    | some c => rw [hg] at h; exact dictErase_subset h

theorem close_trade_mem_active_of_ne {s : SystemState} {tid tid' status : String}
    {f : ℚ} {t : TradeResult} (hne : tid' ≠ tid)
    (h : (tid', t) ∈ s.active_trades) :
    (tid', t) ∈ (close_trade s tid status f).active_trades := by
  unfold close_trade
  cases dictFind? s.active_trades tid with
  | none => exact h
  | some trade =>
    cases dictFind? s.allocated_capital tid with
    | none => exact mem_dictErase_of_ne hne h
    | some c => exact mem_dictErase_of_ne hne h

theorem close_trade_keys_nodup {s : SystemState} {tid status : String} {f : ℚ}
    (h : (keys s.active_trades).Nodup) :
    (keys (close_trade s tid status f).active_trades).Nodup := by
  unfold close_trade
  cases dictFind? s.active_trades tid with
  | none => exact h
  | some trade =>
    cases dictFind? s.allocated_capital tid with
    | none => exact (keys_dictErase _ _ ▸ (List.erase_sublist _ _).nodup h)
    | some c => exact (keys_dictErase _ _ ▸ (List.erase_sublist _ _).nodup h)

theorem close_trade_closes {s : SystemState} {tid status : String} {f : ℚ}
    {t : TradeResult} (h : dictFind? s.active_trades tid = some t) :
    ({ t with
        actual_profit := some (calculate_pnl t (t.price * f))
        status := status } : TradeResult)
      ∈ (close_trade s tid status f).trade_history := by
  unfold close_trade
  rw [h]
  cases dictFind? s.allocated_capital tid with
  | none => exact List.mem_append_right _ (List.mem_singleton.mpr rfl)
  | some c => exact List.mem_append_right _ (List.mem_singleton.mpr rfl)

theorem close_trade_new_history {s : SystemState} {tid status : String} {f : ℚ}
    {e : TradeResult} (h : e ∈ (close_trade s tid status f).trade_history) :
    e ∈ s.trade_history ∨
      ∃ t, dictFind? s.active_trades tid = some t ∧
        e = { t with
                actual_profit := some (calculate_pnl t (t.price * f))
                status := status } := by
  unfold close_trade at h
  cases hf : dictFind? s.active_trades tid with
  | none => rw [hf] at h; exact Or.inl h
  | some trade =>
    rw [hf] at h
    cases hg : dictFind? s.allocated_capital tid with
    | none =>
      rw [hg] at h
      rcases List.mem_append.mp h with h | h
      · exact Or.inl h
      · exact Or.inr ⟨trade, rfl, (List.mem_singleton.mp h)⟩
    | some c =>
      rw [hg] at h
      rcases List.mem_append.mp h with h | h
      · exact Or.inl h
      · exact Or.inr ⟨trade, rfl, (List.mem_singleton.mp h)⟩

end CloseLemmas

/-- Every active trade is stored under its own id — true of every
reachable state, since `execute_trading_cycle` inserts each trade with
`self.active_trades[trade_result.trade_id] = trade_result`. -/
def Consist (s : SystemState) : Prop :=
  ∀ p ∈ s.active_trades, (p.2).trade_id = p.1

section FoldCloseLemmas

theorem foldClose_nil (s : SystemState) (cf : String → ℚ) :
    foldClose s [] cf = s := rfl

theorem foldClose_cons (s : SystemState) (q : String × String)
    (L : List (String × String)) (cf : String → ℚ) :
    foldClose s (q :: L) cf = foldClose (close_trade s q.1 q.2 (cf q.1)) L cf := rfl

theorem foldClose_running (s : SystemState) (L : List (String × String))
    (cf : String → ℚ) : (foldClose s L cf).running = s.running := by
  induction L generalizing s with
  | nil => rfl
  | cons q rest ih =>
    rw [foldClose_cons, ih, close_trade_running]

theorem foldClose_history_mono {s : SystemState} {L : List (String × String)}
    {cf : String → ℚ} {e : TradeResult} (h : e ∈ s.trade_history) :
    e ∈ (foldClose s L cf).trade_history := by
  induction L generalizing s with
  | nil => exact h
  | cons q rest ih =>
    rw [foldClose_cons]
    exact ih (close_trade_history_mono h)

theorem foldClose_active_subset {s : SystemState} {L : List (String × String)}
    {cf : String → ℚ} {p : String × TradeResult}
    (h : p ∈ (foldClose s L cf).active_trades) : p ∈ s.active_trades := by
  induction L generalizing s with
  | nil => exact h
  | cons q rest ih =>
    rw [foldClose_cons] at h
    exact close_trade_active_subset (ih h)

theorem foldClose_not_mem_keys {s : SystemState} {L : List (String × String)}
    {cf : String → ℚ} {tid : String} (h : tid ∉ keys s.active_trades) :
    tid ∉ keys (foldClose s L cf).active_trades := by
  intro hmem
  obtain ⟨p, hp, hfst⟩ := List.mem_map.mp hmem
  exact h (List.mem_map.mpr ⟨p, foldClose_active_subset hp, hfst⟩)

theorem foldClose_mem_active_of_not_mem {s : SystemState}
    {L : List (String × String)} {cf : String → ℚ} {tid : String} {t : TradeResult}
    (hL : tid ∉ L.map Prod.fst) (h : (tid, t) ∈ s.active_trades) :
    (tid, t) ∈ (foldClose s L cf).active_trades := by
  induction L generalizing s with
  | nil => exact h
  | cons q rest ih =>
    simp only [List.map_cons, List.mem_cons, not_or] at hL
    rw [foldClose_cons]
    exact ih hL.2 (close_trade_mem_active_of_ne hL.1 h)

theorem close_trade_not_mem_keys_self {s : SystemState} {tid status : String}
    {f : ℚ} {t : TradeResult} (hfind : dictFind? s.active_trades tid = some t)
    (hnd : (keys s.active_trades).Nodup) :
    tid ∉ keys (close_trade s tid status f).active_trades := by
  unfold close_trade
  rw [hfind]
  cases dictFind? s.allocated_capital tid with
  | none =>
    intro hmem
    rw [show keys (dictErase s.active_trades tid) = (keys s.active_trades).erase tid
        from keys_dictErase _ _] at hmem
    exact ((hnd.mem_erase_iff).mp hmem).1 rfl
  | some c =>
    intro hmem
    rw [show keys (dictErase s.active_trades tid) = (keys s.active_trades).erase tid
        from keys_dictErase _ _] at hmem
    exact ((hnd.mem_erase_iff).mp hmem).1 rfl

theorem foldClose_closes {L : List (String × String)} {s : SystemState}
    {tid status : String} {t : TradeResult} {cf : String → ℚ}
    (hnd : (keys s.active_trades).Nodup)
    (hLnd : (L.map Prod.fst).Nodup)
    (hL : (tid, status) ∈ L)
    (hmem : (tid, t) ∈ s.active_trades) :
    ({ t with
        actual_profit := some (calculate_pnl t (t.price * cf tid))
        status := status } : TradeResult) ∈ (foldClose s L cf).trade_history
    ∧ tid ∉ keys (foldClose s L cf).active_trades := by
  induction L generalizing s with
  | nil => simp at hL
  | cons q rest ih =>
    obtain ⟨k, st⟩ := q
    simp only [List.map_cons, List.nodup_cons] at hLnd
    rw [foldClose_cons]
    by_cases hk : k = tid
    · subst hk
      have hst : st = status := by
        rcases List.mem_cons.mp hL with h | h
        · injection h with h1 h2
          exact h2.symm
        · exact absurd (List.mem_map.mpr ⟨(k, status), h, rfl⟩) hLnd.1
      subst hst
      have hfind : dictFind? s.active_trades k = some t :=
        dictFind_eq_some_of_mem_nodup hmem hnd
      refine ⟨foldClose_history_mono (close_trade_closes hfind),
        foldClose_not_mem_keys (close_trade_not_mem_keys_self hfind hnd)⟩
    · have hL' : (tid, status) ∈ rest := by
        rcases List.mem_cons.mp hL with h | h
        · injection h with h1 h2
          exact absurd h1.symm hk
        · exact h
      have hmem' : (tid, t) ∈ (close_trade s k st (cf k)).active_trades :=
        close_trade_mem_active_of_ne (fun h => hk h.symm) hmem
      exact ih (close_trade_keys_nodup hnd) hLnd.2 hL' hmem'

theorem close_trade_consist {s : SystemState} {tid status : String} {f : ℚ}
    (hc : Consist s) : Consist (close_trade s tid status f) :=
  fun p hp => hc p (close_trade_active_subset hp)

theorem foldClose_new_ids {L : List (String × String)} {s : SystemState}
    {cf : String → ℚ} {e : TradeResult} (hc : Consist s)
    (h : e ∈ (foldClose s L cf).trade_history) :
    e ∈ s.trade_history ∨ e.trade_id ∈ L.map Prod.fst := by
  induction L generalizing s with
  | nil => exact Or.inl h
  | cons q rest ih =>
    rw [foldClose_cons] at h
    rcases ih (close_trade_consist hc) h with h' | h'
    · rcases close_trade_new_history h' with h'' | ⟨t, hfind, rfl⟩
      · exact Or.inl h''
      · refine Or.inr (List.mem_cons.mpr (Or.inl ?_))
        exact hc (q.1, t) (dictFind_mem hfind)
    · exact Or.inr (List.mem_cons.mpr (Or.inr h'))

end FoldCloseLemmas

section FilterMapLemmas

variable {β : Type}

theorem keys_filterMap_sublist (f : (String × TradeResult) → Option (String × β))
    (hkey : ∀ p q, f p = some q → q.1 = p.1) (d : List (String × TradeResult)) :
    ((d.filterMap f).map Prod.fst).Sublist (keys d) := by
  induction d with
  | nil => simp [keys]
  | cons p rest ih =>
    cases hf : f p with
    | none =>
      simp only [List.filterMap_cons, hf, keys, List.map_cons]
      exact ih.cons _
    | some q =>
      have hq : q.1 = p.1 := hkey p q hf
      simp only [List.filterMap_cons, hf, keys, List.map_cons, hq]
      exact ih.cons₂ _

theorem not_mem_keys_filterMap {f : (String × TradeResult) → Option (String × β)}
    (hkey : ∀ p q, f p = some q → q.1 = p.1)
    {d : List (String × TradeResult)} {tid : String} {t : TradeResult}
    (hnd : (keys d).Nodup) (hmem : (tid, t) ∈ d) (hnone : f (tid, t) = none) :
    tid ∉ (d.filterMap f).map Prod.fst := by
  induction d with
  | nil => simp at hmem
  | cons p rest ih =>
    simp only [keys, List.map_cons, List.nodup_cons] at hnd
    rcases List.mem_cons.mp hmem with h | h
    · subst h
      simp only [List.filterMap_cons, hnone]
      intro hcon
      exact hnd.1 ((keys_filterMap_sublist f hkey rest).subset hcon)
    · have hne : p.1 ≠ tid := by
        intro hpk
        exact hnd.1 (hpk ▸ List.mem_map.mpr ⟨(tid, t), h, rfl⟩)
      cases hf : f p with
      | none =>
        simp only [List.filterMap_cons, hf]
        exact ih hnd.2 h
      | some q =>
        have hq : q.1 = p.1 := hkey p q hf
        simp only [List.filterMap_cons, hf, List.map_cons, hq]
        intro hcon
        rcases List.mem_cons.mp hcon with h' | h'
        · exact hne h'.symm
        · exact ih hnd.2 h h'

theorem nodup_keys_filterMap {f : (String × TradeResult) → Option (String × β)}
    (hkey : ∀ p q, f p = some q → q.1 = p.1)
    {d : List (String × TradeResult)} (hnd : (keys d).Nodup) :
    ((d.filterMap f).map Prod.fst).Nodup :=
  (keys_filterMap_sublist f hkey d).nodup hnd

end FilterMapLemmas

section ConservationLemmas

theorem sumValues_append_single (d : List (String × ℚ)) (k : String) (v : ℚ) :
    sumValues (d ++ [(k, v)]) = sumValues d + v := by
  simp [sumValues]

theorem keys_append_single {α : Type} (d : List (String × α)) (k : String) (v : α) :
    keys (d ++ [(k, v)]) = keys d ++ [k] := by
  simp [keys]

theorem realizedSum_append_single (h : List TradeResult) (t : TradeResult) :
    realizedSum (h ++ [t]) = realizedSum h + (t.actual_profit).getD 0 := by
  simp [realizedSum]

/-- The inductive invariant behind capital conservation: the conservation
equation itself, together with the structural fact that the open-trade set
and the allocation map always hold exactly the same trade ids. -/
def LedgerInv (s : SystemState) : Prop :=
  conserves s ∧ keys s.active_trades = keys s.allocated_capital

theorem contains_eq_false_iff {l : List String} {a : String} :
    l.contains a = false ↔ a ∉ l := by
  simp

theorem freshAlong_cons_open (s : SystemState) (t : TradeResult)
    (rest : List LedgerOp) :
    freshAlong s (.openTrade t :: rest)
      = ((!(keys s.allocated_capital).contains t.trade_id
            && !(keys s.active_trades).contains t.trade_id)
          && freshAlong (applyOp s (.openTrade t)) rest) := rfl

theorem freshAlong_cons_close (s : SystemState) (tid status : String) (f : ℚ)
    (rest : List LedgerOp) :
    freshAlong s (.closeTrade tid status f :: rest)
      = freshAlong (applyOp s (.closeTrade tid status f)) rest := by
  show (true && _) = _
  rw [Bool.true_and]

theorem ledgerInv_open {s : SystemState} {t : TradeResult} (hinv : LedgerInv s)
    (hfa : (keys s.allocated_capital).contains t.trade_id = false)
    (hft : (keys s.active_trades).contains t.trade_id = false) :
    LedgerInv (applyOp s (.openTrade t)) := by
  obtain ⟨hcons, hkeys⟩ := hinv
  have hna : t.trade_id ∉ keys s.allocated_capital := contains_eq_false_iff.mp hfa
  have hnt : t.trade_id ∉ keys s.active_trades := contains_eq_false_iff.mp hft
  have hset_alloc : dictSet s.allocated_capital t.trade_id
      (t.quantity * t.price / (t.leverage : ℚ))
      = s.allocated_capital ++ [(t.trade_id, t.quantity * t.price / (t.leverage : ℚ))] :=
    dictSet_not_mem _ hna
  have hset_act : dictSet s.active_trades t.trade_id t
      = s.active_trades ++ [(t.trade_id, t)] := dictSet_not_mem _ hnt
  constructor
  · show _ + _ = _
    simp only [applyOp, update_capital_allocation, hset_alloc, sumValues_append_single]
    unfold conserves at hcons
    linarith [hcons]
  · show keys _ = keys _
    simp only [applyOp, update_capital_allocation, hset_alloc, hset_act,
      keys_append_single, hkeys]

theorem ledgerInv_close {s : SystemState} {tid status : String} {f : ℚ}
    (hinv : LedgerInv s) : LedgerInv (applyOp s (.closeTrade tid status f)) := by
  obtain ⟨hcons, hkeys⟩ := hinv
  show LedgerInv (close_trade s tid status f)
  by_cases hmem : tid ∈ keys s.active_trades
  · obtain ⟨trade, hfind⟩ := dictFind_isSome_of_mem hmem
    obtain ⟨cap, hfindc⟩ := dictFind_isSome_of_mem (hkeys ▸ hmem)
    unfold close_trade
    rw [hfind, hfindc]
    constructor
    · show _ + _ = _ + _
      have hsum : sumValues (dictErase s.allocated_capital tid)
          = sumValues s.allocated_capital - cap := sumValues_dictErase hfindc
      have hreal : realizedSum (s.trade_history ++
          [{ trade with
              actual_profit := some (calculate_pnl trade (trade.price * f))
              status := status }])
          = realizedSum s.trade_history + calculate_pnl trade (trade.price * f) := by
        rw [realizedSum_append_single]
        rfl
      unfold conserves at hcons
      simp only [hsum, hreal]
      linarith [hcons]
    · show keys _ = keys _
      simp only [keys_dictErase, hkeys]
  · have hfind : dictFind? s.active_trades tid = none :=
      dictFind_eq_none_of_not_mem hmem
    rw [close_trade_of_not_active hfind]
    exact ⟨hcons, hkeys⟩

theorem runOps_inv (ops : List LedgerOp) (s : SystemState) (hinv : LedgerInv s)
    (hfresh : freshAlong s ops = true) : LedgerInv (runOps s ops) := by
  induction ops generalizing s with
  | nil => exact hinv
  | cons op rest ih =>
    cases op with
    | openTrade t =>
      rw [freshAlong_cons_open, Bool.and_eq_true, Bool.and_eq_true,
        Bool.not_eq_true', Bool.not_eq_true'] at hfresh
      exact ih _ (ledgerInv_open hinv hfresh.1.1 hfresh.1.2) hfresh.2
    | closeTrade tid status f =>
      rw [freshAlong_cons_close] at hfresh
      exact ih _ (ledgerInv_close hinv) hfresh

theorem freshAlong_append_left (pre suf : List LedgerOp) (s : SystemState)
    (h : freshAlong s (pre ++ suf) = true) : freshAlong s pre = true := by
  induction pre generalizing s with
  | nil => rfl
  | cons op rest ih =>
    cases op with
    | openTrade t =>
      rw [List.cons_append, freshAlong_cons_open, Bool.and_eq_true] at h
      rw [freshAlong_cons_open, Bool.and_eq_true]
      exact ⟨h.1, ih _ h.2⟩
    | closeTrade tid status f =>
      rw [List.cons_append, freshAlong_cons_close] at h
      rw [freshAlong_cons_close]
      exact ih _ h

theorem ledgerInv_init : LedgerInv initState := by
  constructor
  · show (12.00 : ℚ) + sumValues [] = 12.00 + realizedSum []
    simp [sumValues, realizedSum]
  · rfl

end ConservationLemmas

/-- Claim C1: capital conservation.  For any sequence of reserve
(`update_capital_allocation` together with the `active_trades` insertion)
and release (`close_trade`) operations in which each reserve uses a fresh
trade id (as the timestamp-derived ids of the source are), the equation
`available_capital + Σ allocated_capital = total_capital + Σ actual_profit
over the closed-trade history` holds after every single operation — i.e.
after every prefix of the sequence — including releases whose trade id has
no entry in `allocated_capital` (those leave the state unchanged, since
`close_trade` is guarded by activity of the id and every active id is
allocated). -/
theorem capital_conservation (pre suf : List LedgerOp)
    (hfresh : freshAlong initState (pre ++ suf) = true) :
    conserves (runOps initState pre) :=
  (runOps_inv pre initState ledgerInv_init
    (freshAlong_append_left pre suf initState hfresh)).1

/-- A concrete trade: 100 units at price 2 with 50x leverage, so its
margin `quantity * price / leverage` is exactly 4 USDT. -/
def wTrade : TradeResult where
  trade_id := "t1"
  symbol := "BTCUSDT"
  side := "Buy"
  quantity := 100
  price := 2
  leverage := 50
  order_id := "o1"
  expected_profit := 1

/-- A concrete operation sequence: reserve for `wTrade`, then release it
at price factor 101/100 (pnl +2). -/
def wOps : List LedgerOp :=
  [.openTrade wTrade, .closeTrade "t1" "ProfitTaken" (101/100)]

/-- Witness for C1: the freshness hypothesis holds for the concrete
sequence `wOps` and conservation holds after running it. -/
theorem capital_conservation_witness :
    freshAlong initState (wOps ++ []) = true ∧ conserves (runOps initState wOps) :=
  ⟨by rfl, capital_conservation wOps [] (by rfl)⟩

/-- Claim C7 (amended): a second release of a trade id that is no longer
in the open-trade set is a silent no-op — `close_trade` returns with the
entire state (ledger, histories, `running` flag) unchanged; the system is
not halted and no diagnostic is raised. -/
theorem double_release_silent_noop (s : SystemState) (tid status : String) (f : ℚ)
    (h : dictFind? s.active_trades tid = none) :
    close_trade s tid status f = s :=
  close_trade_of_not_active h

/-- A concrete running system with one open trade, used to exercise a
double release. -/
def c7State : SystemState where
  available_capital := 8
  allocated_capital := [("t1", 4)]
  filtered_assets := []
  active_trades := [("t1", wTrade)]
  trade_history := []
  performance_metrics := {}
  running := true
  trade_counter := 1

/-- Counterexample to C7 as stated: after `close_trade` releases trade
`"t1"`, invoking `close_trade` a second time for the same id completes
silently — the state is entirely unchanged and `running` is still `true`,
so the system is not halted and no diagnostic is produced. -/
theorem double_release_counterexample :
    close_trade (close_trade c7State "t1" "StopLoss" 1) "t1" "StopLoss" 1
        = close_trade c7State "t1" "StopLoss" 1
    ∧ (close_trade (close_trade c7State "t1" "StopLoss" 1) "t1" "StopLoss" 1).running
        = true :=
  ⟨rfl, rfl⟩

/-- A state with one closed trade in the history and nothing open. -/
def c7DoneState : SystemState where
  available_capital := 12.5
  allocated_capital := []
  filtered_assets := []
  active_trades := []
  trade_history := [{ wTrade with actual_profit := some 0.5, status := "ProfitTaken" }]
  performance_metrics := {}
  running := true
  trade_counter := 1

/-- Witness for C7 (amended): releasing the already-released id `"t1"` of
`c7DoneState` leaves the state unchanged. -/
theorem double_release_silent_noop_witness :
    dictFind? c7DoneState.active_trades "t1" = none
    ∧ close_trade c7DoneState "t1" "StopLoss" 1 = c7DoneState :=
  ⟨rfl, double_release_silent_noop c7DoneState "t1" "StopLoss" 1 rfl⟩

/-- A concrete instrument snapshot with an attached prediction. -/
def c9Asset : TradingAsset where
  symbol := "ETHUSDT"
  current_price := 10
  daily_volume := 2000000
  volatility_24h := 0.04
  min_order_size := 0.001
  max_leverage := 100
  confidence_score := 0.8
  quantum_prediction := { direction := "Long", confidence := 0.8 }

/-- A state with only 2 USDT available. -/
def c9PoorState : SystemState := { initState with available_capital := 2 }

/-- A state that differs from `initState` in a field other than
`available_capital`. -/
def c9RunState : SystemState := { initState with running := true }

/-- Counterexample to C9 as stated: `generate_trading_signal` evaluated on
the same instrument snapshot returns different signals when the available
capital of the ledger differs (12 USDT vs 2 USDT): the `expected_profit`
fields are 6.4 vs 2.56, so the signal is not a function of the snapshot
alone. -/
theorem signal_purity_counterexample :
    Comp.generate_trading_signal initState c9Asset
      ≠ Comp.generate_trading_signal c9PoorState c9Asset := by
  intro h
  have h' := congrArg Signal.expected_profit h
  simp only [Comp.generate_trading_signal, pyInt, initState, c9PoorState, c9Asset,
    systemConfig] at h'
  norm_num at h'

/-- Claim C9 (amended): the signal is a pure function of the instrument
snapshot and the available capital of the ledger.  Two evaluations on equal
snapshots return equal signals whenever `available_capital` agrees,
whatever the rest of the system state (open trades, histories, metrics,
`running`) looks like — in both the comprehensive and the enhanced
system. -/
theorem signal_function_of_snapshot_and_available (s₁ s₂ : SystemState)
    (asset : TradingAsset) (h : s₁.available_capital = s₂.available_capital) :
    Comp.generate_trading_signal s₁ asset = Comp.generate_trading_signal s₂ asset
    ∧ Enh.generate_trading_signal s₁ asset = Enh.generate_trading_signal s₂ asset := by
  unfold Comp.generate_trading_signal Enh.generate_trading_signal
  rw [h]
  exact ⟨rfl, rfl⟩

/-- Witness for C9 (amended): two states with equal available capital but
different `running` flags produce identical signals on `c9Asset`. -/
theorem signal_function_witness :
    initState.available_capital = c9RunState.available_capital
    ∧ (Comp.generate_trading_signal initState c9Asset
        = Comp.generate_trading_signal c9RunState c9Asset
      ∧ Enh.generate_trading_signal initState c9Asset
        = Enh.generate_trading_signal c9RunState c9Asset) :=
  ⟨rfl, signal_function_of_snapshot_and_available initState c9RunState c9Asset rfl⟩

/-- Claim C10: the drawdown fields are never reset on recovery.  When a
performance refresh runs while `available + Σ allocated ≥ total_capital`,
the guard `current_capital < total_capital` fails and both
`current_drawdown` and `max_drawdown_reached` keep their previous values
(the same transition is performed by `update_performance_tracking` in the
comprehensive and enhanced files and by
`update_realistic_performance_tracking` in the realistic one). -/
theorem drawdown_not_reset_on_recovery (s : SystemState)
    (h : systemConfig.total_capital ≤ s.available_capital + sumValues s.allocated_capital) :
    (update_performance_tracking s).performance_metrics.current_drawdown
        = s.performance_metrics.current_drawdown
    ∧ (update_performance_tracking s).performance_metrics.max_drawdown_reached
        = s.performance_metrics.max_drawdown_reached := by
  have hnot : ¬ (s.available_capital + sumValues s.allocated_capital
      < systemConfig.total_capital) := not_lt.mpr h
  simp only [update_performance_tracking]
  rw [if_neg hnot, if_neg hnot]
  exact ⟨rfl, rfl⟩

/-- A fully recovered state that still records a past drawdown of 0.5%. -/
def c10State : SystemState :=
  { initState with
      performance_metrics := { current_drawdown := 0.005, max_drawdown_reached := 0.007 } }

/-- Witness for C10: refreshing `c10State` (capital fully recovered at
12 USDT) leaves the recorded 0.5% drawdown and 0.7% peak untouched. -/
theorem drawdown_not_reset_witness :
    systemConfig.total_capital
      ≤ c10State.available_capital + sumValues c10State.allocated_capital
    ∧ ((update_performance_tracking c10State).performance_metrics.current_drawdown
        = c10State.performance_metrics.current_drawdown
      ∧ (update_performance_tracking c10State).performance_metrics.max_drawdown_reached
        = c10State.performance_metrics.max_drawdown_reached) :=
  ⟨by norm_num [c10State, initState, systemConfig, sumValues],
    drawdown_not_reset_on_recovery c10State
      (by norm_num [c10State, initState, systemConfig, sumValues])⟩

theorem comp_classify_key (monF : String → ℚ) :
    ∀ p q, Comp.classify monF p = some q → q.1 = p.1 := by
  intro p q hq
  unfold Comp.classify at hq
  dsimp only at hq
  split_ifs at hq
  · injection hq with h
    rw [← h]
  · injection hq with h
    rw [← h]

theorem Comp.classify_stop_loss (monF : String → ℚ) (tid : String) (t : TradeResult)
    (hsl : calculate_pnl t (t.price * monF tid)
      < -t.price * systemConfig.stop_loss_pct) :
    Comp.classify monF (tid, t) = some (tid, "StopLoss") := by
  unfold Comp.classify
  dsimp only
  rw [if_pos hsl]

/-- Claim C5: the stop-loss rule.  In a comprehensive risk-monitor cycle
with no drawdown breach, every open trade whose pnl at the drawn cycle
price (`monF`) is below `-entryPrice * stop_loss_pct` is removed from the
open set and lands in the closed history with terminal status
`"StopLoss"` (its recorded `actual_profit` being the pnl at the separately
drawn close price, as `close_trade` recomputes it); the stop-loss branch is
tested before the take-profit branch in `classify`. -/
theorem stop_loss_rule (s : SystemState) (monF closeF : String → ℚ)
    (tid : String) (t : TradeResult)
    (hdd : ¬ s.performance_metrics.current_drawdown > systemConfig.max_drawdown)
    (hnd : (keys s.active_trades).Nodup)
    (hmem : (tid, t) ∈ s.active_trades)
    (hsl : calculate_pnl t (t.price * monF tid)
      < -t.price * systemConfig.stop_loss_pct) :
    ({ t with
        actual_profit := some (calculate_pnl t (t.price * closeF tid))
        status := "StopLoss" } : TradeResult)
      ∈ (Comp.monitor_risks s monF closeF).trade_history
    ∧ tid ∉ keys (Comp.monitor_risks s monF closeF).active_trades := by
  unfold Comp.monitor_risks
  rw [if_neg hdd]
  exact foldClose_closes hnd
    (nodup_keys_filterMap (comp_classify_key monF) hnd)
    (List.mem_filterMap.mpr ⟨(tid, t), hmem, Comp.classify_stop_loss monF tid t hsl⟩)
    hmem

/-- The concrete trade of the spec scenario: a Buy at entry price 100.00
with quantity 1. -/
def c5Trade : TradeResult where
  trade_id := "t1"
  symbol := "BTCUSDT"
  side := "Buy"
  quantity := 1
  price := 100
  leverage := 50
  order_id := "o1"
  expected_profit := 1

/-- A running comprehensive system holding only `c5Trade`, with no
drawdown. -/
def c5State : SystemState where
  available_capital := 10
  allocated_capital := [("t1", 2)]
  filtered_assets := []
  active_trades := [("t1", c5Trade)]
  trade_history := []
  performance_metrics := {}
  running := true
  trade_counter := 1

/-- The monitor cycle reprices `c5Trade` at factor 0.997, giving
pnl = -0.30 against the threshold -0.25. -/
def c5MonF : String → ℚ := fun _ => 997/1000

/-- The close recomputes the final price at factor 0.998. -/
def c5CloseF : String → ℚ := fun _ => 998/1000

/-- Witness for C5: with entry price 100.00, stop-loss fraction 0.0025
(threshold -0.25) and pnl = -0.30, the trade transitions to `"StopLoss"`
on the next risk cycle. -/
theorem stop_loss_rule_witness :
    calculate_pnl c5Trade (c5Trade.price * c5MonF "t1")
        < -c5Trade.price * systemConfig.stop_loss_pct
    ∧ (({ c5Trade with
          actual_profit := some (calculate_pnl c5Trade (c5Trade.price * c5CloseF "t1"))
          status := "StopLoss" } : TradeResult)
        ∈ (Comp.monitor_risks c5State c5MonF c5CloseF).trade_history
      ∧ "t1" ∉ keys (Comp.monitor_risks c5State c5MonF c5CloseF).active_trades) :=
  ⟨by norm_num [calculate_pnl, c5Trade, c5MonF, systemConfig],
   stop_loss_rule c5State c5MonF c5CloseF "t1" c5Trade
     (by norm_num [c5State, systemConfig])
     (by simp [c5State, keys])
     (by simp [c5State])
     (by norm_num [calculate_pnl, c5Trade, c5MonF, c5State, systemConfig])⟩

theorem enh_classify_key (monC randF : String → ℚ) :
    ∀ p q, Enh.classify monC randF p = some q → q.1 = p.1 := by
  intro p q hq
  unfold Enh.classify at hq
  dsimp only at hq
  split_ifs at hq <;>
    (injection hq with h; rw [← h])

theorem realq_classify_key (monC randF : String → ℚ) :
    ∀ p q, RealQ.classify monC randF p = some q → q.1 = p.1 := by
  intro p q hq
  unfold RealQ.classify at hq
  dsimp only at hq
  split_ifs at hq <;>
    (injection hq with h; rw [← h])

theorem enh_classify_none (monC randF : String → ℚ) (tid : String) (t : TradeResult)
    (h1 : ¬ calculate_pnl t (t.price * (1 + monC tid))
        < -t.price * systemConfig.stop_loss_pct)
    (h2 : ¬ calculate_pnl t (t.price * (1 + monC tid)) ≥ 0.4)
    (h3 : ¬ randF tid < 0.05) :
    Enh.classify monC randF (tid, t) = none := by
  unfold Enh.classify
  dsimp only
  rw [if_neg h1, if_neg h2, if_neg h3]

theorem realq_classify_none (monC randF : String → ℚ) (tid : String) (t : TradeResult)
    (h1 : ¬ calculate_pnl t (t.price * (1 + monC tid))
        < -t.price * systemConfig.stop_loss_pct)
    (h2 : ¬ calculate_pnl t (t.price * (1 + monC tid)) ≥ 0.5)
    (h3 : ¬ randF tid < 0.08) :
    RealQ.classify monC randF (tid, t) = none := by
  unfold RealQ.classify
  dsimp only
  rw [if_neg h1, if_neg h2, if_neg h3]

/-- Claim C6 (amended): in a risk-monitor cycle with no drawdown breach,
an open trade meeting neither the stop-loss nor the take-profit condition
remains in the open-trade set (and gains no closed-history entry) only
provided the per-trade `random.random()` draw does not fall below the
random-close probability — 0.05 in the enhanced monitor, 0.08 in the
realistic one; when the draw falls below it, the trade is closed with
status `"ProfitTaken"` if its pnl is positive and `"StopLoss"` otherwise,
an exit path beyond the documented rules. -/
theorem no_undocumented_exit :
    (∀ (s : SystemState) (monC closeC randF : String → ℚ) (tid : String)
        (t : TradeResult),
      Consist s →
      ¬ s.performance_metrics.current_drawdown > systemConfig.max_drawdown →
      (keys s.active_trades).Nodup →
      (tid, t) ∈ s.active_trades →
      ¬ calculate_pnl t (t.price * (1 + monC tid))
          < -t.price * systemConfig.stop_loss_pct →
      ¬ calculate_pnl t (t.price * (1 + monC tid)) ≥ 0.4 →
      ¬ randF tid < 0.05 →
      (tid, t) ∈ (Enh.monitor_risks s monC closeC randF).active_trades
      ∧ ∀ e ∈ (Enh.monitor_risks s monC closeC randF).trade_history,
          e ∈ s.trade_history ∨ e.trade_id ≠ tid)
    ∧ (∀ (s : SystemState) (monC closeC randF : String → ℚ) (tid : String)
        (t : TradeResult),
      Consist s →
      ¬ s.performance_metrics.current_drawdown > systemConfig.max_drawdown →
      (keys s.active_trades).Nodup →
      (tid, t) ∈ s.active_trades →
      ¬ calculate_pnl t (t.price * (1 + monC tid))
          < -t.price * systemConfig.stop_loss_pct →
      ¬ calculate_pnl t (t.price * (1 + monC tid)) ≥ 0.5 →
      ¬ randF tid < 0.08 →
      (tid, t) ∈ (RealQ.monitor_realistic_risks s monC closeC randF).active_trades
      ∧ ∀ e ∈ (RealQ.monitor_realistic_risks s monC closeC randF).trade_history,
          e ∈ s.trade_history ∨ e.trade_id ≠ tid) := by
  constructor
  · intro s monC closeC randF tid t hc hdd hnd hmem h1 h2 h3
    unfold Enh.monitor_risks
    rw [if_neg hdd]
    have hnotkeys : tid ∉
        (s.active_trades.filterMap (Enh.classify monC randF)).map Prod.fst :=
      not_mem_keys_filterMap (enh_classify_key monC randF) hnd hmem
        (enh_classify_none monC randF tid t h1 h2 h3)
    refine ⟨foldClose_mem_active_of_not_mem hnotkeys hmem, ?_⟩
    intro e he
    rcases foldClose_new_ids hc he with h | h
    · exact Or.inl h
    · exact Or.inr fun heq => hnotkeys (heq ▸ h)
  · intro s monC closeC randF tid t hc hdd hnd hmem h1 h2 h3
    unfold RealQ.monitor_realistic_risks
    rw [if_neg hdd]
    have hnotkeys : tid ∉
        (s.active_trades.filterMap (RealQ.classify monC randF)).map Prod.fst :=
      not_mem_keys_filterMap (realq_classify_key monC randF) hnd hmem
        (realq_classify_none monC randF tid t h1 h2 h3)
    refine ⟨foldClose_mem_active_of_not_mem hnotkeys hmem, ?_⟩
    intro e he
    rcases foldClose_new_ids hc he with h | h
    · exact Or.inl h
    · exact Or.inr fun heq => hnotkeys (heq ▸ h)

/-- A running enhanced system holding only `c5Trade` (entry 100, Buy),
with no drawdown. -/
def c6State : SystemState where
  available_capital := 10
  allocated_capital := [("t1", 2)]
  filtered_assets := []
  active_trades := [("t1", c5Trade)]
  trade_history := []
  performance_metrics := {}
  running := true
  trade_counter := 1

/-- A price-change draw of 0: the trade is repriced at its entry price,
pnl 0 — neither stop-loss nor take-profit fires. -/
def c6ZeroF : String → ℚ := fun _ => 0

/-- A `random.random()` draw of 0.01 — below both random-close
probabilities. -/
def c6LowRandF : String → ℚ := fun _ => 1/100

/-- A `random.random()` draw of 0.5 — above both random-close
probabilities. -/
def c6HighRandF : String → ℚ := fun _ => 1/2

/-- Counterexample to C6 as stated: in an enhanced risk cycle with no
drawdown breach, `c5Trade` has pnl 0 — neither the stop-loss nor the
take-profit condition holds — yet with a random draw of 0.01 < 0.05 the
random-close branch removes it from the open set and appends it to the
closed history with status `"StopLoss"`, so it does not remain `Open`. -/
theorem no_undocumented_exit_counterexample :
    ¬ c6State.performance_metrics.current_drawdown > systemConfig.max_drawdown
    ∧ (Enh.monitor_risks c6State c6ZeroF c6ZeroF c6LowRandF).active_trades = []
    ∧ (Enh.monitor_risks c6State c6ZeroF c6ZeroF c6LowRandF).trade_history
        = [{ c5Trade with actual_profit := some 0, status := "StopLoss" }] := by
  refine ⟨by norm_num [c6State, systemConfig], ?_, ?_⟩
  all_goals
    unfold Enh.monitor_risks Enh.classify
    rw [if_neg (by norm_num [c6State, systemConfig] :
      ¬ c6State.performance_metrics.current_drawdown > systemConfig.max_drawdown)]
    norm_num [c6State, c6ZeroF, c6LowRandF, c5Trade, calculate_pnl, systemConfig,
      foldClose, close_trade, dictFind?, dictErase, List.filterMap_cons,
      List.filterMap_nil, List.foldl_cons, List.foldl_nil]

/-- Witness for C6 (amended): with pnl 0 and a random draw of 0.5 (above
both probabilities), the trade stays in the open set of both the enhanced
and the realistic monitor and gains no history entry. -/
theorem no_undocumented_exit_witness :
    ¬ c6HighRandF "t1" < 0.05
    ∧ (("t1", c5Trade) ∈ (Enh.monitor_risks c6State c6ZeroF c6ZeroF c6HighRandF).active_trades
        ∧ ∀ e ∈ (Enh.monitor_risks c6State c6ZeroF c6ZeroF c6HighRandF).trade_history,
            e ∈ c6State.trade_history ∨ e.trade_id ≠ "t1")
    ∧ (("t1", c5Trade) ∈ (RealQ.monitor_realistic_risks c6State c6ZeroF c6ZeroF
          c6HighRandF).active_trades
        ∧ ∀ e ∈ (RealQ.monitor_realistic_risks c6State c6ZeroF c6ZeroF
            c6HighRandF).trade_history,
            e ∈ c6State.trade_history ∨ e.trade_id ≠ "t1") :=
  ⟨by norm_num [c6HighRandF],
   no_undocumented_exit.1 c6State c6ZeroF c6ZeroF c6HighRandF "t1" c5Trade
     (by intro p hp; simp [c6State] at hp; simp [hp, c5Trade])
     (by norm_num [c6State, systemConfig])
     (by simp [c6State, keys])
     (by simp [c6State])
     (by norm_num [calculate_pnl, c5Trade, c6ZeroF, systemConfig])
     (by norm_num [calculate_pnl, c5Trade, c6ZeroF])
     (by norm_num [c6HighRandF]),
   no_undocumented_exit.2 c6State c6ZeroF c6ZeroF c6HighRandF "t1" c5Trade
     (by intro p hp; simp [c6State] at hp; simp [hp, c5Trade])
     (by norm_num [c6State, systemConfig])
     (by simp [c6State, keys])
     (by simp [c6State])
     (by norm_num [calculate_pnl, c5Trade, c6ZeroF, systemConfig])
     (by norm_num [calculate_pnl, c5Trade, c6ZeroF])
     (by norm_num [c6HighRandF])⟩

/-- Closing every key of the open-trade set (the `emergency_stop` loop)
empties both the open set and the allocation map, appends each trade as
`"Cancelled"` to the history, and leaves the `running` flag to whatever it
was before the loop. -/
theorem foldClose_cancel_all (cf : String → ℚ) :
    ∀ (A : List (String × TradeResult)) (B : List (String × ℚ)) (s : SystemState),
    s.active_trades = A → s.allocated_capital = B → keys A = keys B →
    ((A.map Prod.fst).foldl
        (fun st trade_id => close_trade st trade_id "Cancelled" (cf trade_id))
        s).active_trades = []
    ∧ ((A.map Prod.fst).foldl
        (fun st trade_id => close_trade st trade_id "Cancelled" (cf trade_id))
        s).allocated_capital = []
    ∧ ((A.map Prod.fst).foldl
        (fun st trade_id => close_trade st trade_id "Cancelled" (cf trade_id))
        s).trade_history
      = s.trade_history ++ A.map (fun p =>
          { p.2 with
              actual_profit := some (calculate_pnl p.2 (p.2.price * cf p.1))
              status := "Cancelled" })
    ∧ ((A.map Prod.fst).foldl
        (fun st trade_id => close_trade st trade_id "Cancelled" (cf trade_id))
        s).running = s.running := by
  intro A
  induction A with
  | nil =>
    intro B s hA hB hk
    have hB' : B = [] := by
      cases B with
      | nil => rfl
      | cons b B' => exact absurd hk (by simp [keys])
    simp only [List.map_nil, List.foldl_nil]
    refine ⟨hA, ?_, by simp, by trivial⟩
    rw [hB, hB']
  | cons a A' ih =>
    intro B s hA hB hk
    obtain ⟨k, t⟩ := a
    cases B with
    | nil => exact absurd hk (by simp [keys])
    | cons b B' =>
      obtain ⟨k', c⟩ := b
      have hkk : k = k' := by
        simp only [keys, List.map_cons, List.cons.injEq] at hk
        exact hk.1
      subst hkk
      have hkeys' : keys A' = keys B' := by
        simp only [keys, List.map_cons, List.cons.injEq] at hk
        exact hk.2
      have hfind : dictFind? s.active_trades k = some t := by
        rw [hA]
        simp [dictFind?]
      have hfindc : dictFind? s.allocated_capital k = some c := by
        rw [hB]
        simp [dictFind?]
      have hclose : close_trade s k "Cancelled" (cf k)
          = { s with
                active_trades := A'
                allocated_capital := B'
                available_capital := s.available_capital + c
                    + calculate_pnl t (t.price * cf k)
                trade_history := s.trade_history ++
                  [{ t with
                      actual_profit := some (calculate_pnl t (t.price * cf k))
                      status := "Cancelled" }] } := by
        unfold close_trade
        rw [hfind, hfindc]
        have he1 : dictErase s.active_trades k = A' := by
          rw [hA]
          simp [dictErase]
        have he2 : dictErase s.allocated_capital k = B' := by
          rw [hB]
          simp [dictErase]
        rw [he1, he2]
      have hres := ih B' (close_trade s k "Cancelled" (cf k))
        (by rw [hclose]) (by rw [hclose]) hkeys'
      simp only [List.map_cons, List.foldl_cons]
      refine ⟨hres.1, hres.2.1, ?_, ?_⟩
      · rw [hres.2.2.1, hclose]
        simp
      · rw [hres.2.2.2, hclose]

/-- Claim C3 (amended, theorem part): in the comprehensive system a
drawdown breach at the start of a risk-monitor cycle triggers
`emergency_stop` within that same cycle: the `running` flag becomes
`false` (so no loop executes a further cycle), every open trade is moved
to the closed history with terminal status `"Cancelled"`, and both the
open-trade set and the allocation map are emptied, releasing the capital
of every trade back to the ledger. -/
theorem drawdown_breach_halts (s : SystemState) (monF closeF : String → ℚ)
    (hb : s.performance_metrics.current_drawdown > systemConfig.max_drawdown)
    (hk : keys s.active_trades = keys s.allocated_capital) :
    (Comp.monitor_risks s monF closeF).running = false
    ∧ (Comp.monitor_risks s monF closeF).active_trades = []
    ∧ (Comp.monitor_risks s monF closeF).allocated_capital = []
    ∧ (Comp.monitor_risks s monF closeF).trade_history
        = s.trade_history ++ s.active_trades.map (fun p =>
            { p.2 with
                actual_profit := some (calculate_pnl p.2 (p.2.price * closeF p.1))
                status := "Cancelled" }) := by
  unfold Comp.monitor_risks
  rw [if_pos hb]
  unfold Comp.emergency_stop
  have hres := foldClose_cancel_all closeF s.active_trades s.allocated_capital
    { s with running := false } rfl rfl hk
  exact ⟨hres.2.2.2, hres.1, hres.2.1, hres.2.2.1⟩

/-- A comprehensive system in breach: recorded aggregate drawdown 1.2%
against the 0.9% limit, with one open trade and its allocation. -/
def c3State : SystemState where
  available_capital := 10
  allocated_capital := [("t1", 2)]
  filtered_assets := []
  active_trades := [("t1", c5Trade)]
  trade_history := []
  performance_metrics := { current_drawdown := 0.012, max_drawdown_reached := 0.012 }
  running := true
  trade_counter := 1

/-- Witness for C3 (amended): on `c3State` (drawdown 1.2% > 0.9%) one
comprehensive risk cycle sets `running := false`, empties the open set and
the allocation map, and records the trade as `"Cancelled"`. -/
theorem drawdown_breach_halts_witness :
    c3State.performance_metrics.current_drawdown > systemConfig.max_drawdown
    ∧ ((Comp.monitor_risks c3State c6ZeroF c6ZeroF).running = false
      ∧ (Comp.monitor_risks c3State c6ZeroF c6ZeroF).active_trades = []
      ∧ (Comp.monitor_risks c3State c6ZeroF c6ZeroF).allocated_capital = []
      ∧ (Comp.monitor_risks c3State c6ZeroF c6ZeroF).trade_history
          = c3State.trade_history ++ c3State.active_trades.map (fun p =>
              { p.2 with
                  actual_profit := some (calculate_pnl p.2 (p.2.price * c6ZeroF p.1))
                  status := "Cancelled" })) :=
  ⟨by norm_num [c3State, systemConfig],
   drawdown_breach_halts c3State c6ZeroF c6ZeroF
     (by norm_num [c3State, systemConfig]) rfl⟩

/-- Counterexample to C3 as stated: the risk monitor of the enhanced system
does not halt on a breach.  On `c3State` (drawdown 1.2% > 0.9% at the
start of the cycle) the enhanced `monitor_risks` merely returns: the trade
stays in the open set, nothing is cancelled, and `running` is still
`true`. -/
theorem drawdown_breach_counterexample :
    c3State.performance_metrics.current_drawdown > systemConfig.max_drawdown
    ∧ Enh.monitor_risks c3State c6ZeroF c6ZeroF c6HighRandF = c3State
    ∧ (Enh.monitor_risks c3State c6ZeroF c6ZeroF c6HighRandF).running = true := by
  have hb : c3State.performance_metrics.current_drawdown > systemConfig.max_drawdown := by
    norm_num [c3State, systemConfig]
  have hmon : Enh.monitor_risks c3State c6ZeroF c6ZeroF c6HighRandF = c3State := by
    unfold Enh.monitor_risks
    rw [if_pos hb]
  exact ⟨hb, hmon, by rw [hmon]; rfl⟩

/-- `metrics.successful_trades`: closed trades with terminal status
`"ProfitTaken"`. -/
def wins (h : List TradeResult) : ℕ :=
  (h.filter fun t => t.status == "ProfitTaken").length

/-- `metrics.failed_trades`: closed trades with terminal status
`"StopLoss"`. -/
def stopLossCount (h : List TradeResult) : ℕ :=
  (h.filter fun t => t.status == "StopLoss").length

/-- The `profits` comprehension of `update_performance_tracking`, summed. -/
def profitSum (h : List TradeResult) : ℚ :=
  (h.filterMap fun t =>
    match t.actual_profit with
    | some p => if 0 < p then some p else none
    | none => none).sum

/-- The `losses` comprehension of `update_performance_tracking`, summed. -/
def lossSum (h : List TradeResult) : ℚ :=
  (h.filterMap fun t =>
    match t.actual_profit with
    | some p => if p < 0 then some (-p) else none
    | none => none).sum

/-- The components of `PerformanceMetrics` that
`update_performance_tracking` recomputes from the closed-trade history
alone (all fields except the two drawdown fields, which read the
ledger). -/
def historyMetrics (m : PerformanceMetrics) : ℕ × ℕ × ℕ × ℚ × ℚ × ℚ × ℚ :=
  (m.total_trades, m.successful_trades, m.failed_trades, m.total_profit,
    m.total_loss, m.win_rate, m.average_profit_per_trade)

theorem upt_history (s : SystemState) :
    (update_performance_tracking s).trade_history = s.trade_history := rfl

theorem upt_total_trades (s : SystemState) :
    (update_performance_tracking s).performance_metrics.total_trades
      = s.trade_history.length := rfl

theorem upt_successful_trades (s : SystemState) :
    (update_performance_tracking s).performance_metrics.successful_trades
      = wins s.trade_history := rfl

theorem upt_failed_trades (s : SystemState) :
    (update_performance_tracking s).performance_metrics.failed_trades
      = stopLossCount s.trade_history := rfl

theorem upt_total_profit (s : SystemState) :
    (update_performance_tracking s).performance_metrics.total_profit
      = profitSum s.trade_history := rfl

theorem upt_total_loss (s : SystemState) :
    (update_performance_tracking s).performance_metrics.total_loss
      = lossSum s.trade_history := rfl

theorem upt_win_rate (s : SystemState) :
    (update_performance_tracking s).performance_metrics.win_rate
      = if s.trade_history.length > 0
        then (wins s.trade_history : ℚ) / (s.trade_history.length : ℚ)
        else s.performance_metrics.win_rate := rfl

theorem upt_average (s : SystemState) :
    (update_performance_tracking s).performance_metrics.average_profit_per_trade
      = if s.trade_history.length > 0
        then (profitSum s.trade_history - lossSum s.trade_history)
            / (s.trade_history.length : ℚ)
        else s.performance_metrics.average_profit_per_trade := rfl

/-- Claim C8: win-rate consistency.  After a performance refresh on a
non-empty closed-trade history, `win_rate` equals
`wins / totalTrades` — `wins` counting exactly the `"ProfitTaken"`
trades and `totalTrades` the whole history, `"Cancelled"` included —
and all history-derived metric fields are a pure function of the
history: any two states with the same history refresh to identical
values, and refreshing repeatedly (in any order) never changes them. -/
theorem win_rate_consistency (s : SystemState) (h : s.trade_history ≠ []) :
    (update_performance_tracking s).performance_metrics.win_rate
        = (wins s.trade_history : ℚ) / (s.trade_history.length : ℚ)
    ∧ (update_performance_tracking s).performance_metrics.total_trades
        = s.trade_history.length
    ∧ (update_performance_tracking s).performance_metrics.successful_trades
        = wins s.trade_history
    ∧ (∀ s₂ : SystemState, s₂.trade_history = s.trade_history →
        historyMetrics (update_performance_tracking s₂).performance_metrics
          = historyMetrics (update_performance_tracking s).performance_metrics)
    ∧ historyMetrics
        (update_performance_tracking (update_performance_tracking s)).performance_metrics
      = historyMetrics (update_performance_tracking s).performance_metrics := by
  have hlen : s.trade_history.length > 0 := List.length_pos.mpr h
  have hfields : ∀ s₂ : SystemState, s₂.trade_history = s.trade_history →
      historyMetrics (update_performance_tracking s₂).performance_metrics
        = historyMetrics (update_performance_tracking s).performance_metrics := by
    intro s₂ h₂
    have e1 : (update_performance_tracking s₂).performance_metrics.total_trades
        = (update_performance_tracking s).performance_metrics.total_trades := by
      rw [upt_total_trades, upt_total_trades, h₂]
    have e2 : (update_performance_tracking s₂).performance_metrics.successful_trades
        = (update_performance_tracking s).performance_metrics.successful_trades := by
      rw [upt_successful_trades, upt_successful_trades, h₂]
    have e3 : (update_performance_tracking s₂).performance_metrics.failed_trades
        = (update_performance_tracking s).performance_metrics.failed_trades := by
      rw [upt_failed_trades, upt_failed_trades, h₂]
    have e4 : (update_performance_tracking s₂).performance_metrics.total_profit
        = (update_performance_tracking s).performance_metrics.total_profit := by
      rw [upt_total_profit, upt_total_profit, h₂]
    have e5 : (update_performance_tracking s₂).performance_metrics.total_loss
        = (update_performance_tracking s).performance_metrics.total_loss := by
      rw [upt_total_loss, upt_total_loss, h₂]
    have e6 : (update_performance_tracking s₂).performance_metrics.win_rate
        = (update_performance_tracking s).performance_metrics.win_rate := by
      rw [upt_win_rate, upt_win_rate, h₂, if_pos hlen, if_pos hlen]
    have e7 : (update_performance_tracking s₂).performance_metrics.average_profit_per_trade
        = (update_performance_tracking s).performance_metrics.average_profit_per_trade := by
      rw [upt_average, upt_average, h₂, if_pos hlen, if_pos hlen]
    simp only [historyMetrics, e1, e2, e3, e4, e5, e6, e7]
  refine ⟨?_, upt_total_trades s, upt_successful_trades s, hfields, ?_⟩
  · rw [upt_win_rate, if_pos hlen]
  · exact hfields (update_performance_tracking s) (upt_history s)

/-- A state whose closed history has one `"ProfitTaken"` trade and one
`"Cancelled"` trade. -/
def c8State : SystemState :=
  { initState with
      trade_history :=
        [{ wTrade with
            actual_profit := some 0.7
            status := "ProfitTaken" },
         { c5Trade with
            trade_id := "t2"
            actual_profit := some (-0.1)
            status := "Cancelled" }] }

/-- Witness for C8: on a history of one `"ProfitTaken"` and one
`"Cancelled"` trade the refresh publishes win rate 1/2 — the `"Cancelled"`
trade counts in the denominator but not among the wins. -/
theorem win_rate_consistency_witness :
    c8State.trade_history ≠ []
    ∧ ((update_performance_tracking c8State).performance_metrics.win_rate
          = (wins c8State.trade_history : ℚ) / (c8State.trade_history.length : ℚ)
      ∧ (update_performance_tracking c8State).performance_metrics.total_trades
          = c8State.trade_history.length
      ∧ (update_performance_tracking c8State).performance_metrics.successful_trades
          = wins c8State.trade_history
      ∧ (∀ s₂ : SystemState, s₂.trade_history = c8State.trade_history →
          historyMetrics (update_performance_tracking s₂).performance_metrics
            = historyMetrics (update_performance_tracking c8State).performance_metrics)
      ∧ historyMetrics (update_performance_tracking
            (update_performance_tracking c8State)).performance_metrics
          = historyMetrics (update_performance_tracking c8State).performance_metrics) :=
  ⟨by simp [c8State], win_rate_consistency c8State (by simp [c8State])⟩

/-- The published numbers at the witness state: 2 total trades, 1 win,
win rate 1/2. -/
theorem win_rate_consistency_witness_values :
    wins c8State.trade_history = 1
    ∧ c8State.trade_history.length = 2
    ∧ (update_performance_tracking c8State).performance_metrics.win_rate = 1/2 := by
  refine ⟨by decide, by decide, ?_⟩
  rw [upt_win_rate, show wins c8State.trade_history = 1 from by decide,
    show c8State.trade_history.length = 2 from by decide]
  norm_num

/-- A concrete instrument on which the quantity rounding overshoots: price
9 USDT, volatility 0.02, predicted confidence 0.755 (Long). -/
def c2Asset : TradingAsset where
  symbol := "XRPUSDT"
  current_price := 9
  daily_volume := 2000000
  volatility_24h := 0.02
  min_order_size := 0.001
  max_leverage := 100
  confidence_score := 0.755
  quantum_prediction := { direction := "Long", confidence := 0.755 }

/-- A comprehensive system with exactly 5.00 USDT available. -/
def c2State : SystemState := { initState with available_capital := 5 }

/-- Claim C2 evaluated at the failing input: with 5.00 USDT available the
execution guard (`available_capital < 5`) passes and the signal on
`c2Asset` is admissible (`should_trade = true`, leverage 75), but the
margin actually deducted by `update_capital_allocation` is
`quantize4(5 * 75 / 9) * 9 / 75 = 41.6667 * 9 / 75 = 5.000004 > 5.00`,
driving `available_capital` to exactly -0.000004: the deduction exceeds
available capital at the moment of deduction and available goes
negative. -/
theorem margin_overshoot :
    (Comp.generate_trading_signal c2State c2Asset).should_trade = true
    ∧ ¬ c2State.available_capital < 5
    ∧ (Comp.execute_trade c2State c2Asset
          (Comp.generate_trading_signal c2State c2Asset) "t1" "o1").quantity
        * (Comp.execute_trade c2State c2Asset
            (Comp.generate_trading_signal c2State c2Asset) "t1" "o1").price
        / ((Comp.execute_trade c2State c2Asset
            (Comp.generate_trading_signal c2State c2Asset) "t1" "o1").leverage : ℚ)
      > c2State.available_capital
    ∧ (update_capital_allocation c2State
        (Comp.execute_trade c2State c2Asset
          (Comp.generate_trading_signal c2State c2Asset) "t1" "o1")).available_capital
      = -(1/250000) := by
  refine ⟨?_, by norm_num [c2State, initState], ?_, ?_⟩
  · simp only [Comp.generate_trading_signal, c2State, c2Asset, initState,
      systemConfig, pyInt, Bool.and_eq_true, decide_eq_true_eq]
    norm_num
  · simp only [Comp.execute_trade, Comp.generate_trading_signal, c2State, c2Asset,
      initState, systemConfig, pyInt, quantize4, roundHalfUp]
    norm_num
  · simp only [update_capital_allocation, Comp.execute_trade,
      Comp.generate_trading_signal, c2State, c2Asset, initState, systemConfig,
      pyInt, quantize4, roundHalfUp, dictSet]
    norm_num

/-- A concrete instrument for the ledger scenario: price 2 USDT,
volatility 0.03, predicted confidence 0.8 (Long) — chosen so that the
margin of each opened trade is exactly 4.00 USDT. -/
def c4Asset : TradingAsset where
  symbol := "ADAUSDT"
  current_price := 2
  daily_volume := 2000000
  volatility_24h := 0.03
  min_order_size := 0.001
  max_leverage := 100
  confidence_score := 0.8
  quantum_prediction := { direction := "Long", confidence := 0.8 }

/-- The enhanced system right after startup with `c4Asset` in the
catalog: 12.00 USDT available. -/
def c4Start : SystemState :=
  { initState with filtered_assets := [c4Asset], running := true }

/-- The signal the enhanced evaluator produces on `c4Asset` whenever at
least 4 USDT is available. -/
def c4Sig : Signal :=
  { should_trade := true, confidence := 0.8, direction := "Long",
    leverage := 64, expected_profit := 2304/625, risk_score := 47/100 }

/-- The trade each cycle of the scenario opens: 128 units at price 2 with
64x leverage — margin `128 * 2 / 64 = 4.00` exactly. -/
def c4Trade (tid oid : String) : TradeResult :=
  { trade_id := tid, symbol := "ADAUSDT", side := "Buy", quantity := 128, price := 2,
    leverage := 64, order_id := oid, expected_profit := 2304/625,
    actual_profit := none, status := "Executed" }

/-- State after the first opened trade: 8.00 USDT available. -/
def c4S1 : SystemState :=
  { c4Start with
      trade_counter := 1
      available_capital := 8
      allocated_capital := [("t1", 4)]
      active_trades := [("t1", c4Trade "t1" "o1")] }

/-- State after the second opened trade: 4.00 USDT available. -/
def c4S2 : SystemState :=
  { c4Start with
      trade_counter := 2
      available_capital := 4
      allocated_capital := [("t1", 4), ("t2", 4)]
      active_trades := [("t1", c4Trade "t1" "o1"), ("t2", c4Trade "t2" "o2")] }

/-- State after the third opened trade: 0.00 USDT available. -/
def c4S3 : SystemState :=
  { c4Start with
      trade_counter := 3
      available_capital := 0
      allocated_capital := [("t1", 4), ("t2", 4), ("t3", 4)]
      active_trades := [("t1", c4Trade "t1" "o1"), ("t2", c4Trade "t2" "o2"),
        ("t3", c4Trade "t3" "o3")] }

theorem c4_cycle (s : SystemState) (tid oid : String) (v : ℚ)
    (hav : s.available_capital = v) (h4 : 4 ≤ v) (hne : ¬ v < 3)
    (hfa : s.filtered_assets = [c4Asset]) :
    Enh.execute_trading_cycle s tid oid
      = (true,
        { s with
            trade_counter := s.trade_counter + 1
            available_capital := s.available_capital - 4
            allocated_capital := dictSet s.allocated_capital tid 4
            active_trades := dictSet s.active_trades tid (c4Trade tid oid) }) := by
  have htc : min s.available_capital 4 = 4 := by
    rw [hav]
    exact min_eq_right h4
  have hge3 : (3 : ℚ) ≤ s.available_capital := by
    rw [hav]
    linarith
  have hsig : Enh.generate_trading_signal s c4Asset = c4Sig := by
    simp only [Enh.generate_trading_signal, htc, c4Asset, systemConfig,
      pyInt, c4Sig, Signal.mk.injEq, Bool.and_eq_true, decide_eq_true_eq]
    norm_num [hge3]
  have hsel : Enh.select_best_trading_opportunity s = some (c4Asset, c4Sig) := by
    simp only [Enh.select_best_trading_opportunity, hfa, List.take,
      List.foldl_cons, List.foldl_nil, hsig]
    norm_num [c4Sig]
  have htrade : Enh.execute_trade s c4Asset c4Sig tid oid = c4Trade tid oid := by
    simp only [Enh.execute_trade, htc, c4Asset, c4Sig, c4Trade, quantize4,
      roundHalfUp, TradeResult.mk.injEq]
    norm_num
  unfold Enh.execute_trading_cycle
  rw [hav, if_neg hne, hfa,
    show ([c4Asset] : List TradingAsset).isEmpty = false from rfl,
    if_neg (by simp), hsel]
  rw [← hfa]
  simp only [htrade, update_capital_allocation, Prod.mk.injEq]
  refine ⟨trivial, ?_⟩
  simp only [SystemState.mk.injEq, c4Trade]
  norm_num

/-- Claim C4: the concrete ledger scenario.  Starting from 12.00 USDT with
`maxTradeCapital` 4.00, three consecutive enhanced execution cycles each
open a trade of exactly 4.00 margin, driving `available_capital` through
8.00 and 4.00 to exactly 0.00 (the three 4.00 allocations recorded); the
next execution cycle fails its capital guard and opens no trade, leaving
the state untouched; and releasing the first trade with realized pnl
+0.50 raises `available_capital` to exactly 4.50 (`close_trade` adds back
margin + pnl). -/
theorem ledger_scenario :
    Enh.execute_trading_cycle c4Start "t1" "o1" = (true, c4S1)
    ∧ Enh.execute_trading_cycle c4S1 "t2" "o2" = (true, c4S2)
    ∧ Enh.execute_trading_cycle c4S2 "t3" "o3" = (true, c4S3)
    ∧ c4S1.available_capital = 8
    ∧ c4S2.available_capital = 4
    ∧ c4S3.available_capital = 0
    ∧ dictFind? c4S3.allocated_capital "t1" = some 4
    ∧ dictFind? c4S3.allocated_capital "t2" = some 4
    ∧ dictFind? c4S3.allocated_capital "t3" = some 4
    ∧ Enh.execute_trading_cycle c4S3 "t4" "o4" = (false, c4S3)
    ∧ (close_trade c4S3 "t1" "ProfitTaken" (513/512)).available_capital = 4.5
    ∧ (close_trade c4S3 "t1" "ProfitTaken" (513/512)).trade_history
        = [{ c4Trade "t1" "o1" with
              actual_profit := some 0.5
              status := "ProfitTaken" }] := by
  have hne12 : ¬ "t1" = "t2" := by decide
  have hne13 : ¬ "t1" = "t3" := by decide
  have hne23 : ¬ "t2" = "t3" := by decide
  have h1 : Enh.execute_trading_cycle c4Start "t1" "o1" = (true, c4S1) := by
    rw [c4_cycle c4Start "t1" "o1" 12
      (by norm_num [c4Start, initState, systemConfig]) (by norm_num) (by norm_num) rfl]
    simp only [Prod.mk.injEq, c4S1, c4Start, initState, systemConfig, dictSet,
      SystemState.mk.injEq]
    norm_num
  have h2 : Enh.execute_trading_cycle c4S1 "t2" "o2" = (true, c4S2) := by
    rw [c4_cycle c4S1 "t2" "o2" 8 rfl (by norm_num) (by norm_num) rfl]
    simp only [Prod.mk.injEq, c4S2, c4S1, c4Start, initState, systemConfig, dictSet,
      SystemState.mk.injEq]
    norm_num [hne12]
  have h3 : Enh.execute_trading_cycle c4S2 "t3" "o3" = (true, c4S3) := by
    rw [c4_cycle c4S2 "t3" "o3" 4 rfl (by norm_num) (by norm_num) rfl]
    simp only [Prod.mk.injEq, c4S3, c4S2, c4S1, c4Start, initState, systemConfig,
      dictSet, SystemState.mk.injEq]
    norm_num [hne12, hne13, hne23]
  have h4 : Enh.execute_trading_cycle c4S3 "t4" "o4" = (false, c4S3) := by
    unfold Enh.execute_trading_cycle
    rw [show c4S3.available_capital = (0 : ℚ) from rfl]
    rw [if_pos (by norm_num : (0 : ℚ) < 3)]
  have hfind : dictFind? c4S3.active_trades "t1" = some (c4Trade "t1" "o1") := rfl
  have hfindc : dictFind? c4S3.allocated_capital "t1" = some 4 := rfl
  have hpnl : calculate_pnl (c4Trade "t1" "o1") ((c4Trade "t1" "o1").price * (513/512))
      = 0.5 := by
    norm_num [calculate_pnl, c4Trade]
  have h5 : close_trade c4S3 "t1" "ProfitTaken" (513/512)
      = { c4S3 with
            active_trades := dictErase c4S3.active_trades "t1"
            allocated_capital := dictErase c4S3.allocated_capital "t1"
            available_capital := c4S3.available_capital + 4
                + calculate_pnl (c4Trade "t1" "o1") ((c4Trade "t1" "o1").price * (513/512))
            trade_history := c4S3.trade_history ++
              [{ c4Trade "t1" "o1" with
                  actual_profit := some (calculate_pnl (c4Trade "t1" "o1")
                    ((c4Trade "t1" "o1").price * (513/512)))
                  status := "ProfitTaken" }] } := by
    unfold close_trade
    rw [hfind, hfindc]
  refine ⟨h1, h2, h3, rfl, rfl, rfl, rfl, rfl, rfl, h4, ?_, ?_⟩
  · rw [h5]
    rw [show c4S3.available_capital = (0 : ℚ) from rfl, hpnl]
    norm_num
  · rw [h5, hpnl]
    rfl
